import Mathlib

/-!
A shallow embedding of the debit transaction core of the `debitor` service
(`src/transactions/transactions.service.ts`, `transaction-history.entity.ts`,
`user.entity.ts`), together with theorems about its behaviour.

Monetary values are modelled in cents: the store's NUMERIC(10,2) column holds
exactly two fractional digits, so every representable balance/amount is an
integer number of cents.  Request amounts stay `String`s, as in the DTO, and
are parsed the way `CAST(:amount AS NUMERIC)` would parse them.  The database
is a record of user rows and history rows; one service call is a function from
a database state to an `Except` outcome paired with the successor state, with
the SERIALIZABLE scope's rollback modelled by returning the entry state on
every failure path.
-/

namespace Debitor

/-- Actions supported by the history table (`TransactionAction` enum). -/
inductive TransactionAction
  | DEBIT
deriving DecidableEq, Repr

/-- A row of the `users` table (`user.entity.ts`); `balance` in cents. -/
structure UserRow where
  id : Nat
  balance : Int
deriving DecidableEq, Repr

/-- A row of the `transaction_history` table (`transaction-history.entity.ts`).
`id` stands for the generated uuid, `ts` for the creation timestamp. -/
structure TransactionRecord where
  id : Nat
  userId : Nat
  action : TransactionAction
  amount : String
  idempotencyKey : String
  ts : Nat
deriving DecidableEq, Repr

/-- The request body (`create-transaction.dto.ts`): `amount` is a decimal
string. -/
structure CreateTransactionDto where
  action : TransactionAction
  amount : String
deriving DecidableEq, Repr

/-- The database: user rows, append-only history, the uuid generator and the
wall clock. -/
structure DBState where
  users : List UserRow
  history : List TransactionRecord
  nextId : Nat
  now : Nat
deriving DecidableEq, Repr

/-- The errors that can cross the service boundary: the two Nest exceptions
the service throws itself, and a storage-layer `QueryFailedError` carrying the
PostgreSQL fields (`code`, `message`, `constraint`, `detail`) that
`isRetryableError` / `isIdempotencyError` inspect. -/
inductive AppError
  | notFoundException (message : String)
  | conflictException (message : String)
  | queryFailed (code : String) (message : String)
      (constraint : Option String) (detail : Option String)
deriving DecidableEq, Repr

/-- Check that `pat` is a leading segment of `s` (character lists). -/
def startsWithChars : List Char → List Char → Bool
  | _, [] => true
  | [], _ :: _ => false
  | c :: cs, p :: ps => c == p && startsWithChars cs ps

/-- Check that `pat` occurs contiguously somewhere in `s` (character lists). -/
def includesChars : List Char → List Char → Bool
  | [], pat => pat.isEmpty
  | c :: cs, pat => startsWithChars (c :: cs) pat || includesChars cs pat

/-- JavaScript `String.prototype.includes`, used by the error classifiers. -/
def strIncludes (s pat : String) : Bool :=
  includesChars s.toList pat.toList

/-- Numeric value of a list of decimal digits. -/
def digitsVal (cs : List Char) : Nat :=
  cs.foldl (fun a c => 10 * a + (c.toNat - 48)) 0

/-- Split a character list at its first dot: the whole part, and the rest
after the dot when a dot is present. -/
def splitDot : List Char → List Char × Option (List Char)
  | [] => ([], none)
  | c :: cs =>
    if c == '.' then ([], some cs)
    else
      let r := splitDot cs
      (c :: r.1, r.2)

/-- Value in cents of a decimal string of the shape the DTO validation admits
(`^\d+(\.\d\x7b1,2\x7d)?$`) and `CAST(... AS NUMERIC)` then maps onto the
NUMERIC(10,2) column: digits, optionally a dot and one or two fractional
digits. -/
def parseAmount (s : String) : Option Nat :=
  let p := splitDot s.toList
  match p.2 with
  | none =>
    if 0 < p.1.length && p.1.all Char.isDigit then some (digitsVal p.1 * 100)
    else none
  | some f =>
    if 0 < p.1.length && p.1.all Char.isDigit && f.all Char.isDigit &&
        (f.length == 1 || f.length == 2) then
      some (digitsVal p.1 * 100 + digitsVal f * (if f.length == 1 then 10 else 1))
    else none

/-- Two-digit rendering of a cents remainder. -/
def pad2 (n : Nat) : String :=
  if n < 10 then "0" ++ toString n else toString n

/-- The text the NUMERIC(10,2) column yields when read back: always two
fractional digits (`10000` cents ↦ `"100.00"`). -/
def formatCents (n : Nat) : String :=
  toString (n / 100) ++ "." ++ pad2 (n % 100)

/-- SELECT of a user row by id (`userRepository.exists` / the UPDATE's
row-location). -/
def findUser (σ : DBState) (uid : Nat) : Option UserRow :=
  σ.users.find? (fun u => u.id == uid)

/-- The `userRepository.exists({ where: { id: userId } })` check. -/
def userExists (σ : DBState) (uid : Nat) : Bool :=
  (findUser σ uid).isSome

/-- The `transactionHistoryRepository.findOne({ where: { idempotencyKey } })`
lookup; the unique index guarantees at most one match. -/
def findByKey (σ : DBState) (key : String) : Option TransactionRecord :=
  σ.history.find? (fun r => r.idempotencyKey == key)

/-- Sum, in cents, of the stored DEBIT amounts of one user's history rows. -/
def historySum (σ : DBState) (uid : Nat) : Nat :=
  (σ.history.filter (fun r => r.userId == uid)).foldr
    (fun r acc => (parseAmount r.amount).getD 0 + acc) 0

/-- Balance, in cents, that the store reports for a user (0 if absent). -/
def balanceOf (σ : DBState) (uid : Nat) : Int :=
  ((findUser σ uid).map UserRow.balance).getD 0

/-- The single conditional update
`UPDATE users SET balance = balance - :amount WHERE id = :userId AND balance >= :amount`:
returns the affected-row count and the new table state.  The guard and the
decrement act on the same atomic statement, so the row is decremented exactly
when the guard held at that instant. -/
def updateBalanceIfSufficient (σ : DBState) (uid : Nat) (cents : Nat) :
    Nat × DBState :=
  match findUser σ uid with
  | none => (0, σ)
  | some u =>
    if (cents : Int) ≤ u.balance then
      (1, { σ with users := σ.users.map (fun v =>
              if v.id == uid then { v with balance := v.balance - (cents : Int) }
              else v) })
    else (0, σ)

/-- The `isRetryableError` classifier (transactions.service.ts lines 65-83):
only a `QueryFailedError` whose code is `40001` (serialization_failure) or
`40P01` (deadlock_detected), or whose message carries one of the two
serialization texts, is retryable. -/
def isRetryableError : AppError → Bool
  | .queryFailed code message _ _ =>
    code == "40001" || code == "40P01" ||
      strIncludes message "could not serialize access due to concurrent update" ||
      strIncludes message "could not serialize access due to read/write dependencies"
  | _ => false

/-- The `isIdempotencyError` classifier (lines 85-89): a unique violation
(`23505`) whose constraint name contains `idempotency` or whose detail
mentions the `idempotency_key` column.  On the Nest exceptions there is no
`code` field, so they never match. -/
def isIdempotencyError : AppError → Bool
  | .queryFailed code _ constrt detail =>
    code == "23505" &&
      ((constrt.map (fun c => strIncludes c "idempotency")).getD false ||
       (detail.map (fun d => strIncludes d "idempotency_key")).getD false)
  | _ => false

/-- The error PostgreSQL raises when the history INSERT hits the unique index
on `idempotency_key`: the constraint field holds the TypeORM-generated index
name (an opaque hash), the detail names the column and key. -/
def duplicateKeyFailure (key : String) : AppError :=
  .queryFailed "23505" "duplicate key value violates unique constraint"
    (some "IDX_8f4fbf73577b3bbbedca767eae") -- hash-named index, no 'idempotency' substring
    (some ("Key (idempotency_key)=(" ++ key ++ ") already exists."))

/-- The body of `dataSource.transaction('SERIALIZABLE', ...)` (lines 102-127):
the conditional update, the insufficient-funds abort and the history insert.
A thrown error aborts the scope, so the caller discards the returned state on
`.error`.  On success the returned record is the in-memory entity: its
`amount` is the DTO string verbatim, while the stored row holds the
NUMERIC-normalized text. -/
def txBody (σ : DBState) (uid : Nat) (dto : CreateTransactionDto)
    (key : String) : Except AppError (TransactionRecord × DBState) :=
  match parseAmount dto.amount with
  | none => .error (.queryFailed "22P02"
      ("invalid input syntax for type numeric: " ++ dto.amount) none none)
  | some cents =>
    let r := updateBalanceIfSufficient σ uid cents
    if r.1 == 0 then
      .error (.conflictException "Insufficient funds")
    else if (findByKey r.2 key).isSome then
      .error (duplicateKeyFailure key)
    else
      let stored : TransactionRecord :=
        { id := r.2.nextId, userId := uid, action := dto.action,
          amount := formatCents cents, idempotencyKey := key, ts := r.2.now }
      .ok ({ stored with amount := dto.amount },
        { r.2 with history := r.2.history ++ [stored],
                   nextId := r.2.nextId + 1, now := r.2.now + 1 })

/-- The catch handler of `processTransaction` (lines 128-147): on an
idempotency-key unique violation, a fresh lookup outside the failed scope
either replays the stored record or raises the distinct conflict error; every
other error is rethrown. -/
def handleProcessError (σ : DBState) (key : String) (e : AppError) :
    Except AppError TransactionRecord :=
  if isIdempotencyError e then
    match findByKey σ key with
    | some existing => .ok existing
    | none => .error (.conflictException
        "Duplicate transaction detected but not found in database")
  else .error e

/-- One attempt, `processTransaction` (lines 91-148): existence check before
the scope, then the serializable scope, then the catch handler against the
rolled-back (= entry) state. -/
def processTransaction (σ : DBState) (uid : Nat) (dto : CreateTransactionDto)
    (key : String) : Except AppError TransactionRecord × DBState :=
  if userExists σ uid then
    match txBody σ uid dto key with
    | .ok (rec, σ2) => (.ok rec, σ2)
    | .error e => (handleProcessError σ key e, σ)
  else
    (.error (.notFoundException ("User with id " ++ toString uid ++ " not found")), σ)

/-- MAX_RETRIES of the service. -/
def MAX_RETRIES : Nat := 5

/-- The retry loop of `executeWithRetry` (lines 46-63), recursing on the
number of retries still permitted (`remaining = MAX_RETRIES - attempt`, so
`0 < remaining` is the code's `attempt < this.MAX_RETRIES` guard).  `op n` is
what the wrapped operation raises or returns when invoked the `n`-th time; the
backoff delay only suspends, so it does not appear in the result.  The second
component is the number of the attempt that produced the returned outcome. -/
def retryFrom {α : Type} (op : Nat → Except AppError α) :
    Nat → Nat → Except AppError α × Nat
  | 0, attempt =>
    match op attempt with
    | .ok v => (.ok v, attempt)
    | .error e => (.error e, attempt)
  | remaining + 1, attempt =>
    match op attempt with
    | .ok v => (.ok v, attempt)
    | .error e =>
      if isRetryableError e then retryFrom op remaining (attempt + 1)
      else (.error e, attempt)

/-- The function `executeWithRetry`, instrumented with the final attempt number. -/
def executeWithRetryCount {α : Type} (op : Nat → Except AppError α)
    (attempt : Nat) : Except AppError α × Nat :=
  retryFrom op (MAX_RETRIES - attempt) attempt

/-- The caller-visible result of `executeWithRetry`. -/
def executeWithRetry {α : Type} (op : Nat → Except AppError α)
    (attempt : Nat) : Except AppError α :=
  (executeWithRetryCount op attempt).1

/-- A request as it reaches `createTransaction` after validation: path
parameter, body and the `Idempotency-Key` header. -/
structure Req where
  userId : Nat
  dto : CreateTransactionDto
  key : String
deriving DecidableEq, Repr

/-- The public `createTransaction` (lines 36-44): the processor wrapped in the
retry loop starting at attempt 1.  A sequential attempt is deterministic and
leaves the state untouched on failure, so every re-invocation sees the same
state; the resulting state is that of the (unique) attempt outcome. -/
def createTransaction (σ : DBState) (uid : Nat) (dto : CreateTransactionDto)
    (key : String) : Except AppError TransactionRecord × DBState :=
  (executeWithRetry (fun _ => (processTransaction σ uid dto key).1) 1,
   (processTransaction σ uid dto key).2)

/-- Sequential execution of a list of requests against the store. -/
def runSeq (σ : DBState) : List Req →
    List (Except AppError TransactionRecord) × DBState
  | [] => ([], σ)
  | r :: rs =>
    let step := createTransaction σ r.userId r.dto r.key
    let rest := runSeq step.2 rs
    (step.1 :: rest.1, rest.2)

/-- The history row the success branch of `txBody` inserts. -/
def freshStored (σ : DBState) (uid : Nat) (dto : CreateTransactionDto)
    (key : String) (c : Nat) : TransactionRecord :=
  { id := σ.nextId, userId := uid, action := dto.action,
    amount := formatCents c, idempotencyKey := key, ts := σ.now }

/-- The user table after the conditional update debits `c` cents from `uid`. -/
def debitedUsers (σ : DBState) (uid : Nat) (c : Nat) : List UserRow :=
  σ.users.map (fun v =>
    if v.id == uid then { v with balance := v.balance - (c : Int) } else v)

/-- The database after a committed fresh debit. -/
def freshState (σ : DBState) (uid : Nat) (dto : CreateTransactionDto)
    (key : String) (c : Nat) : DBState :=
  { users := debitedUsers σ uid c,
    history := σ.history ++ [freshStored σ uid dto key c],
    nextId := σ.nextId + 1, now := σ.now + 1 }

/-- An attempt counts as (durably) succeeded when its scope committed, i.e.
when it appended a history row; failed and replayed attempts leave the store
untouched. -/
def attemptCommitted (σ : DBState) (r : Req) : Bool :=
  σ.history.length <
    (createTransaction σ r.userId r.dto r.key).2.history.length

/-- Total, in cents, debited from user `u` by the committed attempts of a
request sequence, evaluated against the evolving store. -/
def committedSum (u : Nat) : DBState → List Req → Nat
  | _, [] => 0
  | σ, r :: rs =>
    (if attemptCommitted σ r && r.userId == u then
      (parseAmount r.dto.amount).getD 0
    else 0)
      + committedSum u (createTransaction σ r.userId r.dto r.key).2 rs

/-- Steps of the `processTransaction` algorithm, named after lines 96-147. -/
inductive TxStep
  | userExistsCheck
  | conditionalBalanceUpdate
  | historyInsert
  | duplicateKeyLookup
deriving DecidableEq, Repr

/-- Transcribed from the block structure of `processTransaction`: which step
executes inside the `dataSource.transaction('SERIALIZABLE', ...)` scope.  The
`userRepository.exists` call (line 96) runs before the scope opens, and the
recovery `findOne` (line 136) runs in the catch handler after the scope has
rolled back; only the conditional UPDATE and the history INSERT (lines
105-123) run inside it. -/
def insideSerializableScope : TxStep → Bool
  | .userExistsCheck => false
  | .conditionalBalanceUpdate => true
  | .historyInsert => true
  | .duplicateKeyLookup => false

/-! ### String helper lemmas -/

theorem startsWithChars_append (l₂ : List Char) :
    ∀ l pat : List Char, startsWithChars l pat = true →
      startsWithChars (l ++ l₂) pat = true := by
  intro l
  induction l with
  | nil =>
    intro pat h
    cases pat with
    | nil => simp [startsWithChars]
    | cons p ps => simp [startsWithChars] at h
  | cons c cs ih =>
    intro pat h
    cases pat with
    | nil => simp [startsWithChars]
    | cons p ps =>
      simp only [startsWithChars, Bool.and_eq_true] at h
      simp only [List.cons_append, startsWithChars, Bool.and_eq_true]
      exact ⟨h.1, ih ps h.2⟩

theorem includesChars_trivial (l : List Char) : includesChars l [] = true := by
  cases l with
  | nil => rfl
  | cons c cs => simp [includesChars, startsWithChars]

theorem includesChars_append_left (l₂ : List Char) :
    ∀ l pat : List Char, includesChars l pat = true →
      includesChars (l ++ l₂) pat = true := by
  intro l
  induction l with
  | nil =>
    intro pat h
    cases pat with
    | nil => simpa using includesChars_trivial l₂
    | cons p ps => simp [includesChars] at h
  | cons c cs ih =>
    intro pat h
    simp only [includesChars, Bool.or_eq_true] at h
    simp only [List.cons_append, includesChars, Bool.or_eq_true]
    cases h with
    | inl h =>
      exact Or.inl (by simpa using startsWithChars_append l₂ (c :: cs) pat h)
    | inr h => exact Or.inr (ih pat h)

theorem strIncludes_append_left (a b pat : String)
    (h : strIncludes a pat = true) : strIncludes (a ++ b) pat = true := by
  unfold strIncludes at *
  have hab : (a ++ b).toList = a.toList ++ b.toList := rfl
  rw [hab]
  exact includesChars_append_left _ _ _ h

/-! ### Classifier lemmas -/

theorem isIdempotencyError_duplicateKeyFailure (key : String) :
    isIdempotencyError (duplicateKeyFailure key) = true := by
  have hpre : strIncludes "Key (idempotency_key)=(" "idempotency_key" = true := by
    decide
  have h2 := strIncludes_append_left _ key _ hpre
  have h3 := strIncludes_append_left _ ") already exists." _ h2
  simp [isIdempotencyError, duplicateKeyFailure, h3]

theorem isIdempotencyError_conflict (m : String) :
    isIdempotencyError (.conflictException m) = false := rfl

theorem isIdempotencyError_notFound (m : String) :
    isIdempotencyError (.notFoundException m) = false := rfl

theorem isIdempotencyError_badCast (m : String) :
    isIdempotencyError (.queryFailed "22P02" m none none) = false := by
  simp [isIdempotencyError]

theorem isRetryableError_conflict (m : String) :
    isRetryableError (.conflictException m) = false := rfl

theorem isRetryableError_notFound (m : String) :
    isRetryableError (.notFoundException m) = false := rfl

/-! ### Conditional-update lemmas -/

theorem updateBalance_sufficient {σ : DBState} {uid : Nat} {c : Nat}
    {u : UserRow} (hu : findUser σ uid = some u) (hb : (c : Int) ≤ u.balance) :
    updateBalanceIfSufficient σ uid c =
      (1, { σ with users := debitedUsers σ uid c }) := by
  unfold updateBalanceIfSufficient
  rw [hu]
  simp [hb, debitedUsers]

theorem updateBalance_insufficient {σ : DBState} {uid : Nat} {c : Nat}
    {u : UserRow} (hu : findUser σ uid = some u) (hb : u.balance < (c : Int)) :
    updateBalanceIfSufficient σ uid c = (0, σ) := by
  unfold updateBalanceIfSufficient
  rw [hu]
  simp [not_le.mpr hb]

theorem findByKey_set_users (σ : DBState) (us : List UserRow) (key : String) :
    findByKey { σ with users := us } key = findByKey σ key := rfl

/-! ### Path lemmas for one attempt -/

theorem processTransaction_notFound {σ : DBState} {uid : Nat}
    {dto : CreateTransactionDto} {key : String}
    (h : userExists σ uid = false) :
    processTransaction σ uid dto key =
      (.error (.notFoundException
        ("User with id " ++ toString uid ++ " not found")), σ) := by
  simp [processTransaction, h]

theorem userExists_of_findUser {σ : DBState} {uid : Nat} {u : UserRow}
    (hu : findUser σ uid = some u) : userExists σ uid = true := by
  unfold userExists
  rw [hu]
  rfl

theorem processTransaction_badParse {σ : DBState} {uid : Nat}
    {dto : CreateTransactionDto} {key : String}
    (hex : userExists σ uid = true) (hc : parseAmount dto.amount = none) :
    processTransaction σ uid dto key =
      (.error (.queryFailed "22P02"
        ("invalid input syntax for type numeric: " ++ dto.amount) none none),
       σ) := by
  simp [processTransaction, txBody, handleProcessError, hex, hc,
    isIdempotencyError_badCast]

theorem processTransaction_insufficient {σ : DBState} {uid : Nat}
    {dto : CreateTransactionDto} {key : String} {u : UserRow} {c : Nat}
    (hu : findUser σ uid = some u) (hc : parseAmount dto.amount = some c)
    (hb : u.balance < (c : Int)) :
    processTransaction σ uid dto key =
      (.error (.conflictException "Insufficient funds"), σ) := by
  simp [processTransaction, txBody, handleProcessError,
    userExists_of_findUser hu, hc, updateBalance_insufficient hu hb,
    isIdempotencyError_conflict]

theorem processTransaction_replay {σ : DBState} {uid : Nat}
    {dto : CreateTransactionDto} {key : String} {u : UserRow} {c : Nat}
    {t : TransactionRecord}
    (hu : findUser σ uid = some u) (hc : parseAmount dto.amount = some c)
    (hb : (c : Int) ≤ u.balance) (hk : findByKey σ key = some t) :
    processTransaction σ uid dto key = (.ok t, σ) := by
  simp [processTransaction, txBody, handleProcessError,
    userExists_of_findUser hu, hc, updateBalance_sufficient hu hb,
    findByKey_set_users, hk, isIdempotencyError_duplicateKeyFailure]

theorem processTransaction_fresh {σ : DBState} {uid : Nat}
    {dto : CreateTransactionDto} {key : String} {u : UserRow} {c : Nat}
    (hu : findUser σ uid = some u) (hc : parseAmount dto.amount = some c)
    (hb : (c : Int) ≤ u.balance) (hk : findByKey σ key = none) :
    processTransaction σ uid dto key =
      (.ok { freshStored σ uid dto key c with amount := dto.amount },
       freshState σ uid dto key c) := by
  simp [processTransaction, txBody, userExists_of_findUser hu, hc,
    updateBalance_sufficient hu hb, findByKey_set_users, hk,
    freshStored, freshState, debitedUsers]

/-- Exhaustive case analysis of one `processTransaction` attempt: not-found,
unparseable amount, insufficient funds, idempotent replay, or a committed
fresh debit. -/
theorem processTransaction_cases (σ : DBState) (uid : Nat)
    (dto : CreateTransactionDto) (key : String) :
    (userExists σ uid = false ∧
      processTransaction σ uid dto key =
        (.error (.notFoundException
          ("User with id " ++ toString uid ++ " not found")), σ))
    ∨ (userExists σ uid = true ∧ parseAmount dto.amount = none ∧
      processTransaction σ uid dto key =
        (.error (.queryFailed "22P02"
          ("invalid input syntax for type numeric: " ++ dto.amount) none none),
         σ))
    ∨ (∃ u c, findUser σ uid = some u ∧ parseAmount dto.amount = some c ∧
      u.balance < (c : Int) ∧
      processTransaction σ uid dto key =
        (.error (.conflictException "Insufficient funds"), σ))
    ∨ (∃ u c t, findUser σ uid = some u ∧ parseAmount dto.amount = some c ∧
      (c : Int) ≤ u.balance ∧ findByKey σ key = some t ∧
      processTransaction σ uid dto key = (.ok t, σ))
    ∨ (∃ u c, findUser σ uid = some u ∧ parseAmount dto.amount = some c ∧
      (c : Int) ≤ u.balance ∧ findByKey σ key = none ∧
      processTransaction σ uid dto key =
        (.ok { freshStored σ uid dto key c with amount := dto.amount },
         freshState σ uid dto key c)) := by
  by_cases hex : userExists σ uid = true
  · obtain ⟨u, hu⟩ : ∃ u, findUser σ uid = some u := by
      unfold userExists at hex
      cases h : findUser σ uid with
      | none => rw [h] at hex; simp at hex
      | some u => exact ⟨u, rfl⟩
    cases hc : parseAmount dto.amount with
    | none => exact Or.inr (Or.inl ⟨hex, rfl, processTransaction_badParse hex hc⟩)
    | some c =>
      by_cases hb : (c : Int) ≤ u.balance
      · cases hk : findByKey σ key with
        | some t =>
          exact Or.inr (Or.inr (Or.inr (Or.inl
            ⟨u, c, t, hu, rfl, hb, rfl, processTransaction_replay hu hc hb hk⟩)))
        | none =>
          exact Or.inr (Or.inr (Or.inr (Or.inr
            ⟨u, c, hu, rfl, hb, rfl, processTransaction_fresh hu hc hb hk⟩)))
      · have hb' : u.balance < (c : Int) := lt_of_not_le hb
        exact Or.inr (Or.inr (Or.inl
          ⟨u, c, hu, rfl, hb', processTransaction_insufficient hu hc hb'⟩))
  · have hex' : userExists σ uid = false := by
      simpa using hex
    exact Or.inl ⟨hex', processTransaction_notFound hex'⟩

/-! ### Retry-loop lemmas -/

theorem retryFrom_zero_ok {α : Type} {op : Nat → Except AppError α} {a : Nat}
    {v : α} (hop : op a = .ok v) : retryFrom op 0 a = (.ok v, a) := by
  show (match op a with
    | .ok v => ((.ok v : Except AppError α), a)
    | .error e => (.error e, a)) = _
  rw [hop]

theorem retryFrom_zero_err {α : Type} {op : Nat → Except AppError α} {a : Nat}
    {e : AppError} (hop : op a = .error e) :
    retryFrom op 0 a = (.error e, a) := by
  show (match op a with
    | .ok v => ((.ok v : Except AppError α), a)
    | .error e => (.error e, a)) = _
  rw [hop]

theorem retryFrom_succ_ok {α : Type} {op : Nat → Except AppError α}
    {k a : Nat} {v : α} (hop : op a = .ok v) :
    retryFrom op (k + 1) a = (.ok v, a) := by
  show (match op a with
    | .ok v => ((.ok v : Except AppError α), a)
    | .error e =>
      if isRetryableError e then retryFrom op k (a + 1) else (.error e, a)) = _
  rw [hop]

theorem retryFrom_succ_err_retry {α : Type} {op : Nat → Except AppError α}
    {k a : Nat} {e : AppError} (hop : op a = .error e)
    (hr : isRetryableError e = true) :
    retryFrom op (k + 1) a = retryFrom op k (a + 1) := by
  show (match op a with
    | .ok v => ((.ok v : Except AppError α), a)
    | .error e =>
      if isRetryableError e then retryFrom op k (a + 1) else (.error e, a)) = _
  rw [hop]
  show (if isRetryableError e then retryFrom op k (a + 1)
    else ((.error e : Except AppError α), a)) = _
  rw [if_pos hr]

theorem retryFrom_succ_err_stop {α : Type} {op : Nat → Except AppError α}
    {k a : Nat} {e : AppError} (hop : op a = .error e)
    (hr : isRetryableError e = false) :
    retryFrom op (k + 1) a = (.error e, a) := by
  show (match op a with
    | .ok v => ((.ok v : Except AppError α), a)
    | .error e =>
      if isRetryableError e then retryFrom op k (a + 1) else (.error e, a)) = _
  rw [hop]
  show (if isRetryableError e then retryFrom op k (a + 1)
    else ((.error e : Except AppError α), a)) = _
  rw [if_neg (by simp [hr])]

theorem retryFrom_const_fst {α : Type} (x : Except AppError α) :
    ∀ rem a, (retryFrom (fun _ => x) rem a).1 = x := by
  intro rem
  induction rem with
  | zero =>
    intro a
    cases x with
    | ok v => rfl
    | error e => rfl
  | succ k ih =>
    intro a
    cases x with
    | ok v => rfl
    | error e =>
      show (if isRetryableError e then
          retryFrom (fun _ => (.error e : Except AppError α)) k (a + 1)
        else ((.error e : Except AppError α), a)).1 = .error e
      by_cases hr : isRetryableError e = true
      · rw [if_pos hr]
        exact ih (a + 1)
      · rw [if_neg (by simpa using hr)]

/-- Sequentially, the retry wrapper around one deterministic attempt returns
exactly that attempt's outcome, and the state is the attempt's state. -/
theorem createTransaction_eq_process (σ : DBState) (uid : Nat)
    (dto : CreateTransactionDto) (key : String) :
    createTransaction σ uid dto key = processTransaction σ uid dto key := by
  simp [createTransaction, executeWithRetry, executeWithRetryCount,
    retryFrom_const_fst]

theorem retryFrom_attempt_le {α : Type} (op : Nat → Except AppError α) :
    ∀ rem a, (retryFrom op rem a).2 ≤ a + rem := by
  intro rem
  induction rem with
  | zero =>
    intro a
    cases hop : op a with
    | ok v => rw [retryFrom_zero_ok hop]; simp
    | error e => rw [retryFrom_zero_err hop]; simp
  | succ k ih =>
    intro a
    cases hop : op a with
    | ok v => rw [retryFrom_succ_ok hop]; simp
    | error e =>
      by_cases hr : isRetryableError e = true
      · rw [retryFrom_succ_err_retry hop hr]
        have := ih (a + 1)
        omega
      · rw [retryFrom_succ_err_stop hop (by simpa using hr)]
        show a ≤ a + (k + 1)
        omega

theorem retryFrom_error_spec {α : Type} (op : Nat → Except AppError α) :
    ∀ rem a e, (retryFrom op rem a).1 = .error e →
      op (retryFrom op rem a).2 = .error e ∧
        (isRetryableError e = false ∨ (retryFrom op rem a).2 = a + rem) := by
  intro rem
  induction rem with
  | zero =>
    intro a e h
    cases hop : op a with
    | ok v => rw [retryFrom_zero_ok hop] at h; simp at h
    | error eprime =>
      rw [retryFrom_zero_err hop] at h ⊢
      simp only [Except.error.injEq] at h
      subst h
      exact ⟨hop, Or.inr rfl⟩
  | succ k ih =>
    intro a e h
    cases hop : op a with
    | ok v => rw [retryFrom_succ_ok hop] at h; simp at h
    | error eprime =>
      by_cases hr : isRetryableError eprime = true
      · rw [retryFrom_succ_err_retry hop hr] at h ⊢
        have hres := ih (a + 1) e h
        refine ⟨hres.1, ?_⟩
        rcases hres.2 with h2 | h2
        · exact Or.inl h2
        · exact Or.inr (by omega)
      · have hr' : isRetryableError eprime = false := by simpa using hr
        rw [retryFrom_succ_err_stop hop hr'] at h ⊢
        simp only [Except.error.injEq] at h
        subst h
        exact ⟨hop, Or.inl hr'⟩

/-! ### Lookups after a committed fresh debit -/

theorem find?_map_debit (us : List UserRow) (uid : Nat) (c : Nat) (uid' : Nat) :
    (us.map (fun v =>
        if v.id == uid then { v with balance := v.balance - (c : Int) } else v)).find?
        (fun v => v.id == uid')
      = (us.find? (fun v => v.id == uid')).map
          (fun v =>
            if v.id == uid then { v with balance := v.balance - (c : Int) } else v) := by
  rw [List.find?_map]
  have hpred : ((fun v : UserRow => v.id == uid') ∘
      (fun v : UserRow =>
        if v.id == uid then { v with balance := v.balance - (c : Int) } else v))
      = (fun v : UserRow => v.id == uid') := by
    funext v
    by_cases h : (v.id == uid) = true <;> simp [h, Function.comp]
  rw [hpred]

theorem findUser_freshState_self {σ : DBState} {uid : Nat}
    {dto : CreateTransactionDto} {key : String} {c : Nat} {u : UserRow}
    (hu : findUser σ uid = some u) :
    findUser (freshState σ uid dto key c) uid =
      some { u with balance := u.balance - (c : Int) } := by
  unfold findUser at hu ⊢
  show (debitedUsers σ uid c).find? _ = _
  unfold debitedUsers
  rw [find?_map_debit, hu]
  have hid : (u.id == uid) = true := by
    have := List.find?_some hu
    simpa using this
  simp only [Option.map_some']
  rw [if_pos hid]

theorem findUser_freshState_other {σ : DBState} {uid : Nat}
    {dto : CreateTransactionDto} {key : String} {c : Nat} {uid' : Nat}
    (hne : uid' ≠ uid) :
    findUser (freshState σ uid dto key c) uid' = findUser σ uid' := by
  unfold findUser
  show (debitedUsers σ uid c).find? _ = _
  unfold debitedUsers
  rw [find?_map_debit]
  cases h : σ.users.find? (fun v => v.id == uid') with
  | none => rfl
  | some w =>
    have hwid : w.id = uid' := by
      have := List.find?_some h
      simpa [beq_iff_eq] using this
    have hne' : ¬((w.id == uid) = true) := by
      simp [beq_iff_eq, hwid]
      exact hne
    simp only [Option.map_some']
    rw [if_neg hne']

theorem findByKey_freshState {σ : DBState} {uid : Nat}
    {dto : CreateTransactionDto} {key : String} {c : Nat}
    (hk : findByKey σ key = none) :
    findByKey (freshState σ uid dto key c) key =
      some (freshStored σ uid dto key c) := by
  unfold findByKey at hk ⊢
  show (σ.history ++ [freshStored σ uid dto key c]).find? _ = _
  rw [List.find?_append, hk]
  simp [freshStored]

theorem balanceOf_freshState_self {σ : DBState} {uid : Nat}
    {dto : CreateTransactionDto} {key : String} {c : Nat} {u : UserRow}
    (hu : findUser σ uid = some u) :
    balanceOf (freshState σ uid dto key c) uid = u.balance - (c : Int) := by
  unfold balanceOf
  rw [findUser_freshState_self hu]
  rfl

theorem balanceOf_freshState_other {σ : DBState} {uid : Nat}
    {dto : CreateTransactionDto} {key : String} {c : Nat} {uid' : Nat}
    (hne : uid' ≠ uid) :
    balanceOf (freshState σ uid dto key c) uid' = balanceOf σ uid' := by
  unfold balanceOf
  rw [findUser_freshState_other hne]

theorem balanceOf_of_findUser {σ : DBState} {uid : Nat} {u : UserRow}
    (hu : findUser σ uid = some u) : balanceOf σ uid = u.balance := by
  unfold balanceOf
  rw [hu]
  rfl

/-! ### One-step balance accounting -/

theorem attemptCommitted_of_state_eq {σ : DBState} {r : Req}
    (h : (createTransaction σ r.userId r.dto r.key).2 = σ) :
    attemptCommitted σ r = false := by
  unfold attemptCommitted
  rw [h]
  simp

theorem attemptCommitted_fresh {σ : DBState} {r : Req} {c : Nat}
    (h : (createTransaction σ r.userId r.dto r.key).2 =
      freshState σ r.userId r.dto r.key c) :
    attemptCommitted σ r = true := by
  unfold attemptCommitted
  rw [h]
  simp [freshState]

/-- Effect of one `createTransaction` call on one user's balance: unchanged
unless the attempt committed, in which case exactly the parsed amount is
debited; a non-negative balance stays non-negative. -/
theorem step_balance (σ : DBState) (r : Req) (uidq : Nat)
    (h0 : 0 ≤ balanceOf σ uidq) :
    balanceOf (createTransaction σ r.userId r.dto r.key).2 uidq
      = balanceOf σ uidq -
        ((if attemptCommitted σ r && (r.userId == uidq) then
            (parseAmount r.dto.amount).getD 0 else 0 : Nat) : Int)
    ∧ 0 ≤ balanceOf (createTransaction σ r.userId r.dto r.key).2 uidq := by
  rcases processTransaction_cases σ r.userId r.dto r.key with
    ⟨hex, hP⟩ | ⟨hex, hpar, hP⟩ | ⟨u, c, hu, hc, hb, hP⟩ |
    ⟨u, c, t, hu, hc, hb, hk, hP⟩ | ⟨u, c, hu, hc, hb, hk, hP⟩
  case inl =>
    have hst : (createTransaction σ r.userId r.dto r.key).2 = σ := by
      rw [createTransaction_eq_process, hP]
    rw [hst, attemptCommitted_of_state_eq hst]
    simp [h0]
  case inr.inl =>
    have hst : (createTransaction σ r.userId r.dto r.key).2 = σ := by
      rw [createTransaction_eq_process, hP]
    rw [hst, attemptCommitted_of_state_eq hst]
    simp [h0]
  case inr.inr.inl =>
    have hst : (createTransaction σ r.userId r.dto r.key).2 = σ := by
      rw [createTransaction_eq_process, hP]
    rw [hst, attemptCommitted_of_state_eq hst]
    simp [h0]
  case inr.inr.inr.inl =>
    have hst : (createTransaction σ r.userId r.dto r.key).2 = σ := by
      rw [createTransaction_eq_process, hP]
    rw [hst, attemptCommitted_of_state_eq hst]
    simp [h0]
  case inr.inr.inr.inr =>
    have hst : (createTransaction σ r.userId r.dto r.key).2 =
        freshState σ r.userId r.dto r.key c := by
      rw [createTransaction_eq_process, hP]
    rw [hst, attemptCommitted_fresh hst]
    by_cases hq : r.userId = uidq
    · subst hq
      rw [balanceOf_freshState_self hu, balanceOf_of_findUser hu]
      simp [hc]
      exact hb
    · have hqb : (r.userId == uidq) = false := by
        simp [beq_iff_eq]
        exact hq
      rw [balanceOf_freshState_other (fun hcontra => hq hcontra.symm)]
      simp [hqb, h0]

theorem runSeq_nonneg_conservation (rs : List Req) :
    ∀ σ uidq, 0 ≤ balanceOf σ uidq →
      0 ≤ balanceOf (runSeq σ rs).2 uidq ∧
      balanceOf (runSeq σ rs).2 uidq
        = balanceOf σ uidq - (committedSum uidq σ rs : Int) := by
  induction rs with
  | nil =>
    intro σ uq h0
    simp [runSeq, committedSum, h0]
  | cons r rs ih =>
    intro σ uq h0
    have hstep := step_balance σ r uq h0
    have hrec := ih (createTransaction σ r.userId r.dto r.key).2 uq hstep.2
    have hrun2 : (runSeq σ (r :: rs)).2 =
        (runSeq (createTransaction σ r.userId r.dto r.key).2 rs).2 := rfl
    have hsum : committedSum uq σ (r :: rs)
        = (if attemptCommitted σ r && (r.userId == uq) then
            (parseAmount r.dto.amount).getD 0 else 0)
          + committedSum uq (createTransaction σ r.userId r.dto r.key).2 rs := rfl
    refine ⟨by rw [hrun2]; exact hrec.1, ?_⟩
    rw [hrun2, hrec.2, hstep.1, hsum]
    push_cast
    ring

/-! ### Idempotency-key machinery -/

/-- Keys of the stored history rows. -/
def historyKeys (σ : DBState) : List String :=
  σ.history.map TransactionRecord.idempotencyKey

theorem not_mem_historyKeys_of_findByKey_none {σ : DBState} {key : String}
    (hk : findByKey σ key = none) : key ∉ historyKeys σ := by
  unfold findByKey at hk
  rw [List.find?_eq_none] at hk
  unfold historyKeys
  intro hmem
  rcases List.mem_map.mp hmem with ⟨t, ht, hfk⟩
  exact hk t ht (by simp [beq_iff_eq, hfk])

theorem step_keys_nodup (σ : DBState) (r : Req)
    (h : (historyKeys σ).Nodup) :
    (historyKeys (createTransaction σ r.userId r.dto r.key).2).Nodup := by
  rcases processTransaction_cases σ r.userId r.dto r.key with
    ⟨hex, hP⟩ | ⟨hex, hpar, hP⟩ | ⟨u, c, hu, hc, hb, hP⟩ |
    ⟨u, c, t, hu, hc, hb, hk, hP⟩ | ⟨u, c, hu, hc, hb, hk, hP⟩ <;>
    rw [createTransaction_eq_process, hP]
  case inl => exact h
  case inr.inl => exact h
  case inr.inr.inl => exact h
  case inr.inr.inr.inl => exact h
  case inr.inr.inr.inr =>
    show (historyKeys (freshState σ r.userId r.dto r.key c)).Nodup
    have hmap : historyKeys (freshState σ r.userId r.dto r.key c)
        = historyKeys σ ++ [r.key] := by
      unfold historyKeys freshState freshStored
      simp
    rw [hmap]
    refine List.nodup_append.mpr ⟨h, List.nodup_singleton _, ?_⟩
    intro a ha hmem
    have : a = r.key := by simpa using hmem
    subst this
    exact not_mem_historyKeys_of_findByKey_none hk ha

theorem runSeq_keys_nodup (rs : List Req) :
    ∀ σ, (historyKeys σ).Nodup → (historyKeys (runSeq σ rs).2).Nodup := by
  induction rs with
  | nil => intro σ h; exact h
  | cons r rs ih =>
    intro σ h
    have h1 := step_keys_nodup σ r h
    have hrun2 : (runSeq σ (r :: rs)).2 =
        (runSeq (createTransaction σ r.userId r.dto r.key).2 rs).2 := rfl
    rw [hrun2]
    exact ih _ h1

theorem filter_key_freshState {σ : DBState} {uid : Nat}
    {dto : CreateTransactionDto} {key : String} {c : Nat}
    (hk : findByKey σ key = none) :
    ((freshState σ uid dto key c).history.filter
      (fun t => t.idempotencyKey == key)).length = 1 := by
  show ((σ.history ++ [freshStored σ uid dto key c]).filter _).length = 1
  rw [List.filter_append]
  have h1 : σ.history.filter (fun t => t.idempotencyKey == key) = [] := by
    rw [List.filter_eq_nil_iff]
    unfold findByKey at hk
    rw [List.find?_eq_none] at hk
    exact hk
  rw [h1]
  simp [freshStored]

theorem runSeq_replicate_replay {σ : DBState} {uid : Nat}
    {dto : CreateTransactionDto} {key : String} {u : UserRow} {c : Nat}
    {t : TransactionRecord} (n : Nat)
    (hu : findUser σ uid = some u) (hc : parseAmount dto.amount = some c)
    (hb : (c : Int) ≤ u.balance) (hk : findByKey σ key = some t) :
    runSeq σ (List.replicate n ⟨uid, dto, key⟩)
      = (List.replicate n (.ok t), σ) := by
  induction n with
  | zero => rfl
  | succ k ih =>
    have hC : createTransaction σ uid dto key = (.ok t, σ) := by
      rw [createTransaction_eq_process, processTransaction_replay hu hc hb hk]
    simp [List.replicate_succ, runSeq, hC, ih]

/-! ### Additional balance lemma for the bare conditional update -/

theorem balanceOf_debited_self {σ : DBState} {uid : Nat} {c : Nat} {u : UserRow}
    (hu : findUser σ uid = some u) :
    balanceOf { σ with users := debitedUsers σ uid c } uid
      = u.balance - (c : Int) := by
  unfold balanceOf findUser at *
  show (((debitedUsers σ uid c).find? _).map _).getD 0 = _
  unfold debitedUsers
  rw [find?_map_debit, hu]
  have hid : (u.id == uid) = true := by
    have := List.find?_some hu
    simpa using this
  simp only [Option.map_some']
  rw [if_pos hid]
  rfl

/-! ### Concrete fixtures -/

/-- A store with one user (id 1, balance 100.00 = 10000 cents). -/
def baseState : DBState :=
  { users := [{ id := 1, balance := 10000 }], history := [],
    nextId := 100, now := 7 }

/-- A DEBIT request body with the given amount string. -/
def debitDto (a : String) : CreateTransactionDto :=
  { action := .DEBIT, amount := a }

/-- A store holding a committed transaction under key `K` for user 1, plus a
second, richer user. -/
def dupState : DBState :=
  { users := [{ id := 1, balance := 10000 }, { id := 2, balance := 50000 }],
    history := [{ id := 55, userId := 1, action := .DEBIT, amount := "50.00",
                  idempotencyKey := "K", ts := 3 }],
    nextId := 100, now := 7 }

/-- An operation that always fails with a serialization conflict. -/
def opSerialize : Nat → Except AppError Unit :=
  fun _ => .error (.queryFailed "40001" "stub" none none)

/-- An operation that always fails with the processor's own business error. -/
def opBusiness : Nat → Except AppError TransactionRecord :=
  fun _ => .error (.conflictException "Insufficient funds")

/-! ### Claim theorems -/

/-- C1: for every user and every sequence of debit attempts, the balance never
becomes negative — each committed debit happened under the `balance >= amount`
guard — and the final balance equals the initial balance minus the sum of the
amounts of exactly those attempts that committed (failed and replayed attempts
leave the store untouched). -/
theorem claim_balance_invariant (σ : DBState) (rs : List Req) (u : Nat)
    (h0 : 0 ≤ balanceOf σ u) :
    0 ≤ balanceOf (runSeq σ rs).2 u ∧
    balanceOf (runSeq σ rs).2 u
      = balanceOf σ u - (committedSum u σ rs : Int) :=
  runSeq_nonneg_conservation rs σ u h0

theorem claim_balance_invariant_witness :
    0 ≤ balanceOf baseState 1 ∧
    (0 ≤ balanceOf
        (runSeq baseState [⟨1, debitDto "60", "a"⟩, ⟨1, debitDto "60", "b"⟩]).2 1 ∧
      balanceOf
        (runSeq baseState [⟨1, debitDto "60", "a"⟩, ⟨1, debitDto "60", "b"⟩]).2 1
        = balanceOf baseState 1 -
          (committedSum 1 baseState
            [⟨1, debitDto "60", "a"⟩, ⟨1, debitDto "60", "b"⟩] : Int)) :=
  ⟨by decide,
   claim_balance_invariant baseState
     [⟨1, debitDto "60", "a"⟩, ⟨1, debitDto "60", "b"⟩] 1 (by decide)⟩

/-- C2 counterexample: after a first debit of the whole balance succeeds, the
identical request (same idempotency key) is rejected with insufficient funds
— the conditional update runs before the insert, so the replay path is never
reached — hence the second response carries no record id or timestamp at all,
contradicting the claim that all N responses carry the same id and ts. -/
theorem claim_idempotency_cex :
    (runSeq baseState (List.replicate 2 ⟨1, debitDto "100", "k"⟩)).1
      = [.ok { id := 100, userId := 1, action := .DEBIT, amount := "100",
               idempotencyKey := "k", ts := 7 },
         .error (.conflictException "Insufficient funds")] := rfl

/-- C2 (amended): for any idempotency key at most one TransactionRecord ever
exists (key-uniqueness of the history is preserved by every run); issuing the
identical request n ≥ 1 times yields exactly one record and exactly one
balance decrement, and — provided the user's balance still covers the amount
when the repeats arrive (2·amount ≤ balance when n ≥ 2) — every one of the n
responses is a success carrying the same record id and the same timestamp.  A
repeat arriving after the balance has dropped below the amount instead fails
with insufficient-funds (see the counterexample). -/
theorem claim_idempotency :
    (∀ σ rs, (historyKeys σ).Nodup → (historyKeys (runSeq σ rs).2).Nodup)
    ∧ (∀ σ uid dto key u c n,
        findUser σ uid = some u → parseAmount dto.amount = some c →
        findByKey σ key = none → (c : Int) ≤ u.balance → 1 ≤ n →
        (2 ≤ n → 2 * (c : Int) ≤ u.balance) →
        ((runSeq σ (List.replicate n ⟨uid, dto, key⟩)).2.history.filter
            (fun t => t.idempotencyKey == key)).length = 1
        ∧ balanceOf (runSeq σ (List.replicate n ⟨uid, dto, key⟩)).2 uid
            = u.balance - (c : Int)
        ∧ ∀ o ∈ (runSeq σ (List.replicate n ⟨uid, dto, key⟩)).1,
            ∃ t, o = .ok t ∧ t.id = σ.nextId ∧ t.ts = σ.now) := by
  constructor
  · intro σ rs h
    exact runSeq_keys_nodup rs σ h
  · intro σ uid dto key u c n hu hc hk hb hn hb2
    obtain ⟨m, rfl⟩ : ∃ m, n = m + 1 := ⟨n - 1, by omega⟩
    have hC : createTransaction σ uid dto key =
        (.ok { freshStored σ uid dto key c with amount := dto.amount },
         freshState σ uid dto key c) := by
      rw [createTransaction_eq_process, processTransaction_fresh hu hc hb hk]
    have hu1 : findUser (freshState σ uid dto key c) uid =
        some { u with balance := u.balance - (c : Int) } :=
      findUser_freshState_self hu
    have hk1 : findByKey (freshState σ uid dto key c) key =
        some (freshStored σ uid dto key c) := findByKey_freshState hk
    have hrest : runSeq (freshState σ uid dto key c)
        (List.replicate m ⟨uid, dto, key⟩)
        = (List.replicate m (.ok (freshStored σ uid dto key c)),
           freshState σ uid dto key c) := by
      cases m with
      | zero => rfl
      | succ mm =>
        have hb1 : (c : Int) ≤
            ({ u with balance := u.balance - (c : Int) } : UserRow).balance := by
          have := hb2 (by omega)
          show (c : Int) ≤ u.balance - (c : Int)
          linarith
        exact runSeq_replicate_replay _ hu1 hc hb1 hk1
    have hrun : runSeq σ (List.replicate (m + 1) ⟨uid, dto, key⟩)
        = (.ok { freshStored σ uid dto key c with amount := dto.amount }
            :: List.replicate m (.ok (freshStored σ uid dto key c)),
           freshState σ uid dto key c) := by
      rw [List.replicate_succ]
      show ((createTransaction σ uid dto key).1 ::
          (runSeq (createTransaction σ uid dto key).2
            (List.replicate m ⟨uid, dto, key⟩)).1,
          (runSeq (createTransaction σ uid dto key).2
            (List.replicate m ⟨uid, dto, key⟩)).2) = _
      rw [hC]
      simp [hrest]
    refine ⟨?_, ?_, ?_⟩
    · rw [hrun]
      exact filter_key_freshState hk
    · rw [hrun]
      exact balanceOf_freshState_self hu
    · rw [hrun]
      intro o ho
      simp only [List.mem_cons] at ho
      rcases ho with rfl | ho
      · exact ⟨_, rfl, rfl, rfl⟩
      · have := List.eq_of_mem_replicate ho
        subst this
        exact ⟨_, rfl, rfl, rfl⟩

theorem claim_idempotency_witness :
    (historyKeys (runSeq baseState [⟨1, debitDto "30", "w"⟩]).2).Nodup ∧
    ((runSeq baseState (List.replicate 3 ⟨1, debitDto "30", "w"⟩)).2.history.filter
        (fun t => t.idempotencyKey == "w")).length = 1 ∧
    balanceOf (runSeq baseState (List.replicate 3 ⟨1, debitDto "30", "w"⟩)).2 1
      = (10000 : Int) - 3000 :=
  ⟨claim_idempotency.1 baseState [⟨1, debitDto "30", "w"⟩] (by decide),
   (claim_idempotency.2 baseState 1 (debitDto "30") "w"
      { id := 1, balance := 10000 } 3000 3 rfl rfl rfl (by decide) (by decide)
      (fun _ => by decide)).1,
   (claim_idempotency.2 baseState 1 (debitDto "30") "w"
      { id := 1, balance := 10000 } 3000 3 rfl rfl rfl (by decide) (by decide)
      (fun _ => by decide)).2.1⟩

/-- C3: given an existing user and a parseable amount, `createTransaction`
raises insufficient-funds exactly when the conditional update affects zero
rows; and every failed attempt is atomic — the returned state is the entry
state, so the balance is unchanged and no history row is written. -/
theorem claim_insufficient_atomicity :
    (∀ σ uid dto key u c, findUser σ uid = some u →
      parseAmount dto.amount = some c →
      ((createTransaction σ uid dto key).1
          = .error (.conflictException "Insufficient funds")
        ↔ (updateBalanceIfSufficient σ uid c).1 = 0))
    ∧ (∀ σ uid dto key e, (createTransaction σ uid dto key).1 = .error e →
        (createTransaction σ uid dto key).2 = σ) := by
  constructor
  · intro σ uid dto key u c hu hc
    constructor
    · intro hres
      rcases processTransaction_cases σ uid dto key with
        ⟨hex, hP⟩ | ⟨hex, hpar, hP⟩ | ⟨u0, c0, hu0, hc0, hb0, hP⟩ |
        ⟨u0, c0, t0, hu0, hc0, hb0, hk0, hP⟩ | ⟨u0, c0, hu0, hc0, hb0, hk0, hP⟩
      · rw [userExists_of_findUser hu] at hex
        cases hex
      · rw [hc] at hpar
        cases hpar
      · have hueq : u0 = u := Option.some.inj (hu0.symm.trans hu)
        have hceq : c0 = c := Option.some.inj (hc0.symm.trans hc)
        subst hueq
        subst hceq
        rw [updateBalance_insufficient hu hb0]
      · rw [createTransaction_eq_process, hP] at hres
        simp at hres
      · rw [createTransaction_eq_process, hP] at hres
        simp at hres
    · intro hupd
      have hb : u.balance < (c : Int) := by
        by_contra hcon
        push_neg at hcon
        rw [updateBalance_sufficient hu hcon] at hupd
        cases hupd
      rw [createTransaction_eq_process,
        processTransaction_insufficient hu hc hb]
  · intro σ uid dto key e hres
    rcases processTransaction_cases σ uid dto key with
      ⟨hex, hP⟩ | ⟨hex, hpar, hP⟩ | ⟨u0, c0, hu0, hc0, hb0, hP⟩ |
      ⟨u0, c0, t0, hu0, hc0, hb0, hk0, hP⟩ | ⟨u0, c0, hu0, hc0, hb0, hk0, hP⟩
    · rw [createTransaction_eq_process, hP]
    · rw [createTransaction_eq_process, hP]
    · rw [createTransaction_eq_process, hP]
    · rw [createTransaction_eq_process, hP]
    · rw [createTransaction_eq_process, hP] at hres
      simp at hres

theorem claim_insufficient_atomicity_witness :
    ((createTransaction baseState 1 (debitDto "200") "x").1
        = .error (.conflictException "Insufficient funds")
      ↔ (updateBalanceIfSufficient baseState 1 20000).1 = 0) ∧
    (createTransaction baseState 1 (debitDto "200") "x").2 = baseState :=
  ⟨claim_insufficient_atomicity.1 baseState 1 (debitDto "200") "x"
      { id := 1, balance := 10000 } 20000 rfl rfl,
   claim_insufficient_atomicity.2 baseState 1 (debitDto "200") "x"
      (.conflictException "Insufficient funds") rfl⟩

/-- C4: the balance mutation is the single conditional update — it decrements
by exactly the amount iff the current balance covers it, leaving state
untouched otherwise; hence a debit of exactly the current balance succeeds and
leaves balance 0, and a debit of balance + 1 cent fails with
insufficient-funds. -/
theorem claim_conditional_update_boundary :
    (∀ σ uid (c : Nat) u, findUser σ uid = some u →
      (((c : Int) ≤ u.balance →
          updateBalanceIfSufficient σ uid c
            = (1, { σ with users := debitedUsers σ uid c }) ∧
          balanceOf (updateBalanceIfSufficient σ uid c).2 uid
            = u.balance - (c : Int))
        ∧ (u.balance < (c : Int) →
          updateBalanceIfSufficient σ uid c = (0, σ))))
    ∧ (∀ σ uid dto key u c, findUser σ uid = some u →
        parseAmount dto.amount = some c → findByKey σ key = none →
        (c : Int) = u.balance →
        (createTransaction σ uid dto key).1
          = .ok { freshStored σ uid dto key c with amount := dto.amount } ∧
        balanceOf (createTransaction σ uid dto key).2 uid = 0)
    ∧ (∀ σ uid dto key u c, findUser σ uid = some u →
        parseAmount dto.amount = some c → (c : Int) = u.balance + 1 →
        createTransaction σ uid dto key
          = (.error (.conflictException "Insufficient funds"), σ)) := by
  refine ⟨?_, ?_, ?_⟩
  · intro σ uid c u hu
    constructor
    · intro hb
      refine ⟨updateBalance_sufficient hu hb, ?_⟩
      rw [updateBalance_sufficient hu hb]
      exact balanceOf_debited_self hu
    · intro hb
      exact updateBalance_insufficient hu hb
  · intro σ uid dto key u c hu hc hk hceq
    have hb : (c : Int) ≤ u.balance := le_of_eq hceq
    have hC : createTransaction σ uid dto key =
        (.ok { freshStored σ uid dto key c with amount := dto.amount },
         freshState σ uid dto key c) := by
      rw [createTransaction_eq_process, processTransaction_fresh hu hc hb hk]
    refine ⟨by rw [hC], ?_⟩
    rw [hC]
    show balanceOf (freshState σ uid dto key c) uid = 0
    rw [balanceOf_freshState_self hu]
    omega
  · intro σ uid dto key u c hu hc hceq
    have hb : u.balance < (c : Int) := by omega
    rw [createTransaction_eq_process,
      processTransaction_insufficient hu hc hb]

theorem claim_conditional_update_boundary_witness :
    (((4000 : Int) ≤ (10000 : Int) →
        updateBalanceIfSufficient baseState 1 4000
          = (1, { baseState with users := debitedUsers baseState 1 4000 }) ∧
        balanceOf (updateBalanceIfSufficient baseState 1 4000).2 1
          = (10000 : Int) - 4000)
      ∧ ((10000 : Int) < (4000 : Int) →
        updateBalanceIfSufficient baseState 1 4000 = (0, baseState))) ∧
    ((createTransaction baseState 1 (debitDto "100") "q").1
        = .ok { freshStored baseState 1 (debitDto "100") "q" 10000 with
                amount := "100" } ∧
      balanceOf (createTransaction baseState 1 (debitDto "100") "q").2 1 = 0) ∧
    createTransaction baseState 1 (debitDto "100.01") "r"
      = (.error (.conflictException "Insufficient funds"), baseState) :=
  ⟨claim_conditional_update_boundary.1 baseState 1 4000
      { id := 1, balance := 10000 } rfl,
   claim_conditional_update_boundary.2.1 baseState 1 (debitDto "100") "q"
      { id := 1, balance := 10000 } 10000 rfl rfl rfl (by decide),
   claim_conditional_update_boundary.2.2 baseState 1 (debitDto "100.01") "r"
      { id := 1, balance := 10000 } 10001 rfl rfl (by decide)⟩

/-- C5: on an idempotency-key uniqueness violation the handler performs a
fresh lookup by that key against the rolled-back store and returns the found
record as a success; if the lookup finds nothing it raises the distinct
conflict error (not insufficient-funds); and a full attempt hitting the
duplicate key returns the stored record with its original fields, leaving the
state untouched. -/
theorem claim_duplicate_recovery :
    (∀ σ key e, isIdempotencyError e = true →
      ((∃ t, findByKey σ key = some t ∧ handleProcessError σ key e = .ok t)
        ∨ (findByKey σ key = none ∧
          handleProcessError σ key e
            = .error (.conflictException
                "Duplicate transaction detected but not found in database"))))
    ∧ (AppError.conflictException
        "Duplicate transaction detected but not found in database"
        ≠ .conflictException "Insufficient funds")
    ∧ (∀ σ uid dto key u c t, findUser σ uid = some u →
        parseAmount dto.amount = some c → (c : Int) ≤ u.balance →
        findByKey σ key = some t →
        createTransaction σ uid dto key = (.ok t, σ)) := by
  refine ⟨?_, by decide, ?_⟩
  · intro σ key e he
    cases hfk : findByKey σ key with
    | some t =>
      exact Or.inl ⟨t, rfl, by simp [handleProcessError, he, hfk]⟩
    | none =>
      exact Or.inr ⟨rfl, by simp [handleProcessError, he, hfk]⟩
  · intro σ uid dto key u c t hu hc hb hk
    rw [createTransaction_eq_process, processTransaction_replay hu hc hb hk]

theorem claim_duplicate_recovery_witness :
    ((∃ t, findByKey dupState "K" = some t ∧
        handleProcessError dupState "K" (duplicateKeyFailure "K") = .ok t)
      ∨ (findByKey dupState "K" = none ∧
        handleProcessError dupState "K" (duplicateKeyFailure "K")
          = .error (.conflictException
              "Duplicate transaction detected but not found in database"))) ∧
    createTransaction dupState 1 (debitDto "20") "K"
      = (.ok { id := 55, userId := 1, action := .DEBIT, amount := "50.00",
               idempotencyKey := "K", ts := 3 }, dupState) :=
  ⟨claim_duplicate_recovery.1 dupState "K" (duplicateKeyFailure "K") rfl,
   claim_duplicate_recovery.2.2 dupState 1 (debitDto "20") "K"
      { id := 1, balance := 10000 } 2000
      { id := 55, userId := 1, action := .DEBIT, amount := "50.00",
        idempotencyKey := "K", ts := 3 } rfl rfl (by decide) rfl⟩

/-- C6 counterexample: the user-existence check of `processTransaction` (line
96, `userRepository.exists`) runs before `dataSource.transaction` opens the
serializable scope, so not every step of the algorithm executes inside it. -/
theorem claim_scope_cex :
    insideSerializableScope TxStep.userExistsCheck = false := rfl

/-- C6 (amended): the conditional update and the history insert run inside the
serializable transactional scope, but the user-existence check runs before the
scope opens (and the duplicate-recovery lookup after it has rolled back); when
the target user does not exist the call fails with not-found and the store is
left exactly as it was — no transactional side effects. -/
theorem claim_scope_structure :
    insideSerializableScope TxStep.userExistsCheck = false ∧
    insideSerializableScope TxStep.conditionalBalanceUpdate = true ∧
    insideSerializableScope TxStep.historyInsert = true ∧
    insideSerializableScope TxStep.duplicateKeyLookup = false ∧
    (∀ σ uid dto key, userExists σ uid = false →
      createTransaction σ uid dto key =
        (.error (.notFoundException
          ("User with id " ++ toString uid ++ " not found")), σ)) :=
  ⟨rfl, rfl, rfl, rfl, fun σ uid dto key h => by
    rw [createTransaction_eq_process, processTransaction_notFound h]⟩

theorem claim_scope_structure_witness :
    userExists baseState 99 = false ∧
    createTransaction baseState 99 (debitDto "10") "z"
      = (.error (.notFoundException "User with id 99 not found"), baseState) :=
  ⟨rfl, claim_scope_structure.2.2.2.2 baseState 99 (debitDto "10") "z" rfl⟩

/-- C7: the retry wrapper performs at most `MAX_RETRIES = 5` invocations
(attempt numbers 1 .. final with final ≤ 5), and whenever a failure is
surfaced it is the very error object the final invocation raised, surfaced
either because it was not retryable or because the 5-attempt ceiling was
reached. -/
theorem claim_retry_bounds {α : Type} (op : Nat → Except AppError α) :
    (executeWithRetryCount op 1).2 ≤ MAX_RETRIES ∧
    (∀ e, executeWithRetry op 1 = .error e →
      op (executeWithRetryCount op 1).2 = .error e ∧
      (isRetryableError e = false ∨
        (executeWithRetryCount op 1).2 = MAX_RETRIES)) := by
  constructor
  · show (retryFrom op 4 1).2 ≤ 5
    have := retryFrom_attempt_le op 4 1
    omega
  · intro e he
    have hspec := retryFrom_error_spec op 4 1 e he
    refine ⟨hspec.1, ?_⟩
    rcases hspec.2 with h | h
    · exact Or.inl h
    · refine Or.inr ?_
      show (retryFrom op 4 1).2 = 5
      omega

theorem claim_retry_bounds_witness :
    (executeWithRetryCount opSerialize 1).2 ≤ MAX_RETRIES ∧
    (opSerialize (executeWithRetryCount opSerialize 1).2
        = .error (.queryFailed "40001" "stub" none none) ∧
      (isRetryableError (.queryFailed "40001" "stub" none none) = false ∨
        (executeWithRetryCount opSerialize 1).2 = MAX_RETRIES)) :=
  ⟨(claim_retry_bounds opSerialize).1,
   (claim_retry_bounds opSerialize).2
     (.queryFailed "40001" "stub" none none) rfl⟩

/-- C8: a failure is classified retryable exactly when it is a storage-layer
`QueryFailedError` whose code is a serialization failure (40001) or a detected
deadlock (40P01) or whose message carries one of the two serialization texts;
the processor's own exceptions are never retryable, and an operation raising
one is never re-invoked — the wrapper returns that very error after attempt 1. -/
theorem claim_retryable_classification :
    (∀ code msg copt dopt,
      isRetryableError (.queryFailed code msg copt dopt)
        = (code == "40001" || code == "40P01" ||
          strIncludes msg "could not serialize access due to concurrent update" ||
          strIncludes msg
            "could not serialize access due to read/write dependencies")) ∧
    (∀ m, isRetryableError (.notFoundException m) = false) ∧
    (∀ m, isRetryableError (.conflictException m) = false) ∧
    (∀ (α : Type) (op : Nat → Except AppError α) e, op 1 = .error e →
      isRetryableError e = false →
      executeWithRetryCount op 1 = (.error e, 1)) := by
  refine ⟨fun code msg copt dopt => rfl, fun m => rfl, fun m => rfl, ?_⟩
  intro α op e hop hr
  show retryFrom op 4 1 = (.error e, 1)
  have h4 : (4 : Nat) = 3 + 1 := rfl
  rw [h4]
  exact retryFrom_succ_err_stop hop hr

theorem claim_retryable_classification_witness :
    isRetryableError (.queryFailed "40001" "stub" none none)
      = (("40001" == "40001") || ("40001" == "40P01") ||
        strIncludes "stub" "could not serialize access due to concurrent update" ||
        strIncludes "stub"
          "could not serialize access due to read/write dependencies") ∧
    isRetryableError (.notFoundException "User with id 99 not found") = false ∧
    isRetryableError (.conflictException "Insufficient funds") = false ∧
    executeWithRetryCount opBusiness 1
      = (.error (.conflictException "Insufficient funds"), 1) :=
  ⟨claim_retryable_classification.1 "40001" "stub" none none,
   claim_retryable_classification.2.1 "User with id 99 not found",
   claim_retryable_classification.2.2.1 "Insufficient funds",
   claim_retryable_classification.2.2.2 TransactionRecord opBusiness
     (.conflictException "Insufficient funds") rfl rfl⟩

/-- C9: on the duplicate-key recovery path the processor returns the stored
record without comparing its userId, action or amount against the current
request: any request reusing an existing key — with any userId that exists and
any parseable amount its balance covers — receives the original record as a
success, and the attempt's balance mutation is rolled back (the state is
unchanged). -/
theorem claim_replay_ignores_request :
    ∀ σ uid dto key u c t, findByKey σ key = some t →
      findUser σ uid = some u → parseAmount dto.amount = some c →
      (c : Int) ≤ u.balance →
      createTransaction σ uid dto key = (.ok t, σ) :=
  fun σ uid dto key u c t hk hu hc hb => by
    rw [createTransaction_eq_process, processTransaction_replay hu hc hb hk]

theorem claim_replay_ignores_request_witness :
    createTransaction dupState 2 (debitDto "99") "K"
      = (.ok { id := 55, userId := 1, action := .DEBIT, amount := "50.00",
               idempotencyKey := "K", ts := 3 }, dupState) ∧
    (2 : Nat) ≠ 1 ∧ ("99" : String) ≠ "50.00" :=
  ⟨claim_replay_ignores_request dupState 2 (debitDto "99") "K"
      { id := 2, balance := 50000 } 9900
      { id := 55, userId := 1, action := .DEBIT, amount := "50.00",
        idempotencyKey := "K", ts := 3 } rfl rfl rfl (by decide),
   by decide, by decide⟩

/-- C10: a fresh success returns the in-memory record whose `amount` is the
caller's decimal string verbatim, while the durably stored row carries the
NUMERIC-normalized two-fractional-digit text; a replay of the same key
returns the stored row, so the two responses share id and ts but can differ
textually in `amount`. -/
theorem claim_amount_verbatim :
    ∀ σ uid dto key u c, findUser σ uid = some u →
      parseAmount dto.amount = some c → findByKey σ key = none →
      (c : Int) ≤ u.balance →
      (createTransaction σ uid dto key).1
          = .ok { freshStored σ uid dto key c with amount := dto.amount }
      ∧ ({ freshStored σ uid dto key c with amount := dto.amount }).amount
          = dto.amount
      ∧ (createTransaction σ uid dto key).2.history
          = σ.history ++ [freshStored σ uid dto key c]
      ∧ (freshStored σ uid dto key c).amount = formatCents c
      ∧ ({ freshStored σ uid dto key c with amount := dto.amount }).id
          = (freshStored σ uid dto key c).id
      ∧ ({ freshStored σ uid dto key c with amount := dto.amount }).ts
          = (freshStored σ uid dto key c).ts
      ∧ (2 * (c : Int) ≤ u.balance →
          createTransaction (createTransaction σ uid dto key).2 uid dto key
            = (.ok (freshStored σ uid dto key c),
               (createTransaction σ uid dto key).2)) := by
  intro σ uid dto key u c hu hc hk hb
  have hC : createTransaction σ uid dto key =
      (.ok { freshStored σ uid dto key c with amount := dto.amount },
       freshState σ uid dto key c) := by
    rw [createTransaction_eq_process, processTransaction_fresh hu hc hb hk]
  refine ⟨by rw [hC], rfl, by rw [hC]; rfl, rfl, rfl, rfl, ?_⟩
  intro hb2
  have hu1 : findUser (freshState σ uid dto key c) uid =
      some { u with balance := u.balance - (c : Int) } :=
    findUser_freshState_self hu
  have hk1 : findByKey (freshState σ uid dto key c) key =
      some (freshStored σ uid dto key c) := findByKey_freshState hk
  have hb1 : (c : Int) ≤
      ({ u with balance := u.balance - (c : Int) } : UserRow).balance := by
    show (c : Int) ≤ u.balance - (c : Int)
    linarith
  rw [hC]
  rw [createTransaction_eq_process, processTransaction_replay hu1 hc hb1 hk1]

theorem claim_amount_verbatim_witness :
    (createTransaction baseState 1 (debitDto "30") "q").1
      = .ok { id := 100, userId := 1, action := .DEBIT, amount := "30",
              idempotencyKey := "q", ts := 7 } ∧
    (createTransaction
        (createTransaction baseState 1 (debitDto "30") "q").2
        1 (debitDto "30") "q").1
      = .ok { id := 100, userId := 1, action := .DEBIT, amount := "30.00",
              idempotencyKey := "q", ts := 7 } ∧
    ("30" : String) ≠ "30.00" := by
  have h := claim_amount_verbatim baseState 1 (debitDto "30") "q"
    { id := 1, balance := 10000 } 3000 rfl rfl rfl (by decide)
  refine ⟨h.1, ?_, by decide⟩
  rw [h.2.2.2.2.2.2 (by decide)]
  rfl

end Debitor
